import Mathlib

/-!
Verification of `download_pre_v1_data.py` (LCOGT/aws-s3-scripts).

The script is shallowly embedded below.  Python strings are modelled as Lean
`String`s, with `String.data` (a `List Char`) used for the character-level
operations; the S3 client and the OpenSearch index are modelled as explicit
function parameters (their responses), and every observable action of the
script (restore requests, issued search queries, downloads) is returned as an
explicit trace.  Fallible Python operations (exceptions such as `IndexError`,
`ValueError`, `AttributeError`) are modelled with `Option`/sum types.
-/

/-! ## Character-list utilities modelling Python string primitives -/

/-- Boolean test that `p` is a prefix of `s` (used to locate pattern
occurrences the way CPython's `str.replace`/`in` scan does). -/
def isPre : List Char → List Char → Bool
  | [], _ => true
  | _ :: _, [] => false
  | p :: ps, c :: cs => p == c && isPre ps cs

/-- Python's substring test `pat in s` on character lists. -/
def occursIn (pat : List Char) : List Char → Bool
  | [] => pat.isEmpty
  | c :: cs => isPre pat (c :: cs) || occursIn pat cs

/-- Scanner for `listReplace`: a positive `skip` means the scan is inside a
just-replaced occurrence whose remaining characters are dropped without
being re-examined (Python's `str.replace` is non-overlapping). -/
def replaceGo (pat rep : List Char) : List Char → Nat → List Char
  | [], _ => []
  | _ :: cs, skip + 1 => replaceGo pat rep cs skip
  | c :: cs, 0 =>
    if h : pat ≠ [] ∧ isPre pat (c :: cs) = true then
      rep ++ replaceGo pat rep cs (pat.length - 1)
    else
      c :: replaceGo pat rep cs 0

/-- Python's `s.replace(pat, rep)`: replace every non-overlapping occurrence
of `pat`, scanning left to right.  (All patterns used by the script are
non-empty; for an empty `pat` this is the identity.) -/
def listReplace (s pat rep : List Char) : List Char := replaceGo pat rep s 0

theorem replaceGo_skip (pat rep s : List Char) (k : Nat) :
    replaceGo pat rep s k = replaceGo pat rep (s.drop k) 0 := by
  induction s generalizing k with
  | nil => cases k <;> rfl
  | cons c cs ih =>
    cases k with
    | zero => rfl
    | succ j =>
      rw [List.drop_succ_cons, ← ih j]
      rfl

theorem listReplace_nil (pat rep : List Char) : listReplace [] pat rep = [] := rfl

theorem listReplace_cons (c : Char) (cs pat rep : List Char) :
    listReplace (c :: cs) pat rep =
      if h : pat ≠ [] ∧ isPre pat (c :: cs) = true then
        rep ++ listReplace ((c :: cs).drop pat.length) pat rep
      else c :: listReplace cs pat rep := by
  unfold listReplace
  by_cases h : pat ≠ [] ∧ isPre pat (c :: cs) = true
  · rw [dif_pos h, replaceGo, dif_pos h, replaceGo_skip]
    obtain ⟨p, ps, rfl⟩ : ∃ p ps, pat = p :: ps := by
      cases pat with
      | nil => exact absurd rfl h.1
      | cons p ps => exact ⟨p, ps, rfl⟩
    simp only [List.length_cons, Nat.add_sub_cancel, List.drop_succ_cons]
  · rw [dif_neg h, replaceGo, dif_neg h]

/-- Python's `s.split(sep)` for a single-character separator. -/
def listSplit (sep : Char) : List Char → List (List Char)
  | [] => [[]]
  | c :: cs =>
    if c == sep then [] :: listSplit sep cs
    else
      match listSplit sep cs with
      | [] => [[c]]
      | t :: ts => (c :: t) :: ts

/-- Append `t` to the last element of a list of segments. -/
def appendToLast (t : List Char) : List (List Char) → List (List Char)
  | [] => []
  | [x] => [x ++ t]
  | x :: xs => x :: appendToLast t xs

/-- Boolean suffix test. -/
def isSuffix (pat s : List Char) : Bool := isPre pat.reverse s.reverse

theorem isPre_append (p t : List Char) : isPre p (p ++ t) = true := by
  induction p with
  | nil => rfl
  | cons c cs ih => simp [isPre, ih]

theorem isPre_iff (p s : List Char) : isPre p s = true ↔ ∃ t, s = p ++ t := by
  induction p generalizing s with
  | nil => simp [isPre]
  | cons c cs ih =>
    cases s with
    | nil => simp [isPre]
    | cons x xs =>
      simp only [isPre, Bool.and_eq_true, beq_iff_eq, ih]
      constructor
      · rintro ⟨rfl, t, rfl⟩
        exact ⟨t, rfl⟩
      · rintro ⟨t, ht⟩
        cases ht
        exact ⟨rfl, t, rfl⟩

theorem occursIn_iff (pat s : List Char) :
    occursIn pat s = true ↔ ∃ l r, s = l ++ pat ++ r := by
  induction s with
  | nil =>
    simp only [occursIn, List.isEmpty_iff]
    constructor
    · rintro rfl
      exact ⟨[], [], rfl⟩
    · rintro ⟨l, r, h⟩
      rcases List.append_eq_nil.mp (List.append_eq_nil.mp h.symm).1 with ⟨_, h2⟩
      exact h2
  | cons c cs ih =>
    simp only [occursIn, Bool.or_eq_true, isPre_iff, ih]
    constructor
    · rintro (⟨t, ht⟩ | ⟨l, r, hr⟩)
      · exact ⟨[], t, by simp [ht]⟩
      · exact ⟨c :: l, r, by simp [hr]⟩
    · rintro ⟨l, r, hr⟩
      cases l with
      | nil =>
        left
        exact ⟨r, by simpa using hr⟩
      | cons x xs =>
        right
        simp only [List.cons_append, List.cons.injEq] at hr
        exact ⟨xs, r, hr.2⟩

theorem not_occursIn_of_count_lt (pat s : List Char) (c : Char)
    (h : s.count c < pat.count c) : occursIn pat s = false := by
  rw [← Bool.not_eq_true, occursIn_iff]
  rintro ⟨l, r, rfl⟩
  simp only [List.count_append] at h
  omega

theorem listReplace_of_not_occursIn (s pat rep : List Char)
    (h : occursIn pat s = false) : listReplace s pat rep = s := by
  induction s with
  | nil => exact listReplace_nil pat rep
  | cons c cs ih =>
    simp only [occursIn, Bool.or_eq_false_iff] at h
    rw [listReplace_cons, dif_neg]
    · rw [ih h.2]
    · rintro ⟨-, hpre⟩
      rw [h.1] at hpre
      exact Bool.false_ne_true hpre

theorem listReplace_boundary (stem pat rep t : List Char)
    (hhead : ∃ p', pat = '.' :: p') (hstem : '.' ∉ stem) :
    listReplace (stem ++ pat ++ t) pat rep = stem ++ rep ++ listReplace t pat rep := by
  obtain ⟨p', rfl⟩ := hhead
  induction stem with
  | nil =>
    simp only [List.nil_append, List.cons_append]
    have hcond : ('.' :: p') ≠ [] ∧ isPre ('.' :: p') ('.' :: (p' ++ t)) = true :=
      ⟨List.cons_ne_nil _ _, by simpa using isPre_append ('.' :: p') t⟩
    rw [listReplace_cons, dif_pos hcond]
    have hdrop : ('.' :: (p' ++ t)).drop ('.' :: p').length = t := by
      simp only [List.length_cons, List.drop_succ_cons]
      exact List.drop_left p' t
    rw [hdrop]
  | cons c cs ih =>
    have hc : c ≠ '.' := fun h => hstem (h ▸ List.mem_cons_self c cs)
    have hcs : '.' ∉ cs := fun h => hstem (List.mem_cons_of_mem c h)
    simp only [List.cons_append]
    have hneg : ¬(('.' :: p') ≠ [] ∧
        isPre ('.' :: p') (c :: (cs ++ ('.' :: p') ++ t)) = true) := by
      rintro ⟨-, hpre⟩
      simp only [isPre, Bool.and_eq_true, beq_iff_eq] at hpre
      exact hc hpre.1.symm
    rw [listReplace_cons, dif_neg hneg, ih hcs]

theorem listSplit_ne_nil (sep : Char) (s : List Char) : listSplit sep s ≠ [] := by
  induction s with
  | nil => simp [listSplit]
  | cons c cs ih =>
    rw [listSplit]
    by_cases h : c == sep
    · simp [h]
    · simp only [h]
      cases hs : listSplit sep cs with
      | nil => simp
      | cons t ts => simp

theorem listSplit_of_not_mem (sep : Char) (t : List Char) (h : sep ∉ t) :
    listSplit sep t = [t] := by
  induction t with
  | nil => rfl
  | cons c cs ih =>
    have hc : ¬(c == sep) = true := by
      simp only [beq_iff_eq]
      intro hx
      exact h (hx ▸ List.mem_cons_self c cs)
    have hcs : sep ∉ cs := fun hx => h (List.mem_cons_of_mem c hx)
    rw [listSplit]
    simp only [Bool.not_eq_true] at hc
    rw [hc, ih hcs]
    rfl

theorem listSplit_append (sep : Char) (s t : List Char) (h : sep ∉ t) :
    listSplit sep (s ++ t) = appendToLast t (listSplit sep s) := by
  induction s with
  | nil =>
    simp only [List.nil_append]
    rw [listSplit_of_not_mem sep t h]
    rfl
  | cons c cs ih =>
    simp only [List.cons_append]
    rw [listSplit, listSplit, ih]
    rcases hs : listSplit sep cs with - | ⟨x, xs⟩
    · exact absurd hs (listSplit_ne_nil sep cs)
    · cases hc : c == sep
      · cases xs with
        | nil => simp [hc, appendToLast]
        | cons y ys => simp [hc, appendToLast]
      · simp [hc, appendToLast]

theorem appendToLast_getElem? (t : List Char) (l : List (List Char)) (i : Nat)
    (h : i + 1 < l.length) : (appendToLast t l)[i]? = l[i]? := by
  induction l generalizing i with
  | nil => rfl
  | cons x xs ih =>
    cases xs with
    | nil =>
      simp only [List.length_cons, List.length_nil] at h
      omega
    | cons y ys =>
      cases i with
      | zero => simp [appendToLast]
      | succ j =>
        simp only [appendToLast, List.getElem?_cons_succ]
        exact ih j (by simpa using h)

theorem isSuffix_append (pat l : List Char) : isSuffix pat (l ++ pat) = true := by
  unfold isSuffix
  rw [List.reverse_append]
  exact isPre_append pat.reverse l.reverse

/-! ## `datetime` modelling: `strptime`, `strftime` for the two formats used -/

/-- A `datetime.datetime` value (proleptic Gregorian, microsecond precision). -/
structure PyDateTime where
  year : Nat
  month : Nat
  day : Nat
  hour : Nat
  minute : Nat
  second : Nat
  microsecond : Nat
deriving DecidableEq, Repr

/-- Numeric value of an ASCII digit. -/
def digitVal (c : Char) : Option Nat :=
  if '0' ≤ c ∧ c ≤ '9' then some (c.toNat - '0'.toNat) else none

/-- Greedily consume up to `max` leading digits (as `strptime`'s numeric
directives do), returning the value, the number of digits consumed and the
rest of the input. -/
def takeDigitsAux : Nat → List Char → Nat → Nat → Nat × Nat × List Char
  | 0, s, acc, cnt => (acc, cnt, s)
  | _ + 1, [], acc, cnt => (acc, cnt, [])
  | n + 1, c :: cs, acc, cnt =>
    match digitVal c with
    | some d => takeDigitsAux n cs (acc * 10 + d) (cnt + 1)
    | none => (acc, cnt, c :: cs)

/-- Consume between 1 and `max` digits; `none` if no digit is present. -/
def takeDigits (max : Nat) (s : List Char) : Option (Nat × Nat × List Char) :=
  match takeDigitsAux max s 0 0 with
  | (_, 0, _) => none
  | (v, cnt, rest) => some (v, cnt, rest)

/-- Consume one expected literal character. -/
def expectChar (c : Char) : List Char → Option (List Char)
  | x :: xs => if x == c then some xs else none
  | [] => none

def isLeapYear (y : Nat) : Bool :=
  y % 4 == 0 && (y % 100 != 0 || y % 400 == 0)

def daysInMonth (y m : Nat) : Nat :=
  if m == 2 then (if isLeapYear y then 29 else 28)
  else if m == 4 || m == 6 || m == 9 || m == 11 then 30
  else 31

/-- Validity checks performed by `datetime.strptime`/the `datetime`
constructor on the parsed field values. -/
def validDate (y mo d : Nat) : Bool :=
  1 ≤ y && y ≤ 9999 && 1 ≤ mo && mo ≤ 12 && 1 ≤ d && d ≤ daysInMonth y mo

def validTime (h mi s : Nat) : Bool :=
  h ≤ 23 && mi ≤ 59 && s ≤ 59

/-- `datetime.strptime(s, '%Y-%m-%d')`. -/
def strptimeDate (s : List Char) : Option PyDateTime := do
  let (y, _, r) ← takeDigits 4 s
  let r ← expectChar '-' r
  let (mo, _, r) ← takeDigits 2 r
  let r ← expectChar '-' r
  let (d, _, r) ← takeDigits 2 r
  if r = [] ∧ validDate y mo d then
    some ⟨y, mo, d, 0, 0, 0, 0⟩
  else none

/-- `datetime.strptime(s, '%Y-%m-%dT%H:%M:%S.%f')`; `%f` reads 1–6 digits and
scales them to microseconds. -/
def strptimeDateTime (s : List Char) : Option PyDateTime := do
  let (y, _, r) ← takeDigits 4 s
  let r ← expectChar '-' r
  let (mo, _, r) ← takeDigits 2 r
  let r ← expectChar '-' r
  let (d, _, r) ← takeDigits 2 r
  let r ← expectChar 'T' r
  let (h, _, r) ← takeDigits 2 r
  let r ← expectChar ':' r
  let (mi, _, r) ← takeDigits 2 r
  let r ← expectChar ':' r
  let (sec, _, r) ← takeDigits 2 r
  let r ← expectChar '.' r
  let (f, fcnt, r) ← takeDigits 6 r
  if r = [] ∧ validDate y mo d ∧ validTime h mi sec then
    some ⟨y, mo, d, h, mi, sec, f * 10 ^ (6 - fcnt)⟩
  else none

/-- Result of a call to `parse_date_obs`: the Python function either raises
(`ValueError` from `strptime`) or returns `None` / a `datetime`. -/
inductive ParseResult where
  | raised
  | value (d : Option PyDateTime)
deriving DecidableEq, Repr

/-- `parse_date_obs` (source lines 58–72, lifted from BANZAI): `'N/A'` maps to
`None`; a date without `'T'` is parsed as `%Y-%m-%d`; otherwise the
fractional-second part (split on `'.'`) is padded with trailing zeros to six
digits — by appending `(6 - len(last_part)) * '0'`, or `'.000000'` when there
is no fractional part — before parsing as `%Y-%m-%dT%H:%M:%S.%f`. -/
def parse_date_obs (date_obs_string : String) : ParseResult :=
  if date_obs_string = "N/A" then ParseResult.value none
  else if ¬ date_obs_string.data.contains 'T' then
    match strptimeDate date_obs_string.data with
    | some d => ParseResult.value (some d)
    | none => ParseResult.raised
  else
    let date_fractional_seconds_list := listSplit '.' date_obs_string.data
    let padded :=
      if date_fractional_seconds_list.length > 1 then
        date_obs_string.data ++
          List.replicate (6 - (date_fractional_seconds_list.getLastD []).length) '0'
      else
        date_obs_string.data ++ ('.' :: "000000".data)
    match strptimeDateTime padded with
    | some d => ParseResult.value (some d)
    | none => ParseResult.raised

/-- Zero-pad the decimal representation of `n` to width `w` (as `strftime`'s
numeric directives do). -/
def padNat (w n : Nat) : List Char :=
  let s := (toString n).data
  List.replicate (w - s.length) '0' ++ s

/-- `d.strftime('%Y-%m-%dT%H:%M:%S.%f')`. -/
def strfFull (d : PyDateTime) : List Char :=
  padNat 4 d.year ++ '-' :: padNat 2 d.month ++ '-' :: padNat 2 d.day ++
    'T' :: padNat 2 d.hour ++ ':' :: padNat 2 d.minute ++ ':' :: padNat 2 d.second ++
    '.' :: padNat 6 d.microsecond

/-- Source line 88: `f"{input_date_obs.strftime('%Y-%m-%dT%H:%M:%S.%f')[:-3]}UTC"` —
truncate the microseconds to milliseconds and append the `UTC` marker. -/
def dateOrigin (d : PyDateTime) : String :=
  ⟨(strfFull d).dropLast.dropLast.dropLast ++ "UTC".data⟩

/-! ## Key resolver (source lines 27–36) -/

/-- `make_s3_prefix_from_filename` (source lines 27–36): site is the first
three characters, instrument and day-of-observation the second and third
hyphen-delimited segments (a Python `IndexError` when the segments are
missing is modelled as `none`), and the extension is normalised to
`.fits.fz` by `replace('.fits.fz', '.fits').replace('.fits', '.fits.fz')`. -/
def make_s3_prefix_from_filename (filename : String) : Option String :=
  let site := filename.data.take 3
  let segments := listSplit '-' filename.data
  match segments[1]?, segments[2]? with
  | some instrument, some dayobs =>
    let compressed_filename :=
      listReplace (listReplace filename.data ".fits.fz".data ".fits".data)
        ".fits".data ".fits.fz".data
    some ⟨site ++ '/' :: instrument ++ '/' :: dayobs ++ "/raw/".data ++ compressed_filename⟩
  | _, _ => none

/-! ## Metadata lookup and calibration-frame finder (source lines 39–116) -/

/-- A frame-metadata record as stored in the OpenSearch index (the `_source`
of a hit). -/
structure FrameRecord where
  SITEID : String
  INSTRUME : String
  FILTER : String
  OBSTYPE : String
  DATE_OBS : String
  filename : String
deriving DecidableEq, Repr

/-- The two query shapes submitted by the script: a single `match_phrase`
(metadata lookup) and a `function_score` query whose boolean part is a
`must` list of `match_phrase` filters, scored by a multiplicative linear
time decay (`origin`/`scale`/`decay`) and truncated to `size` results. -/
inductive Query where
  | matchPhrase (field value : String)
  | functionScore (must : List (String × String)) (origin scale decay : String) (size : Nat)
deriving DecidableEq, Repr

/-- The `must` clauses (as field/value pairs) of a query. -/
def mustOf : Query → List (String × String)
  | Query.matchPhrase _ _ => []
  | Query.functionScore must _ _ _ _ => must

/-- Value of a named metadata field of a record. -/
def fieldValue (r : FrameRecord) (f : String) : Option String :=
  if f = "OBSTYPE" then some r.OBSTYPE
  else if f = "SITEID" then some r.SITEID
  else if f = "INSTRUME" then some r.INSTRUME
  else if f = "FILTER" then some r.FILTER
  else if f = "DATE-OBS" then some r.DATE_OBS
  else if f = "filename" then some r.filename
  else none

/-- Source line 45: the filename is scrubbed of both extensions before the
lookup, `filename.replace('.fits', '').replace('.fz', '')`. -/
def normalized_filename (filename : String) : String :=
  ⟨listReplace (listReplace filename.data ".fits".data []) ".fz".data []⟩

/-- The `match_phrase` query body built by `get_frame_metadata`. -/
def metadataQuery (filename : String) : Query :=
  Query.matchPhrase "filename" (normalized_filename filename)

/-- `get_frame_metadata` (source lines 39–54).  `search` is the OpenSearch
client: the ranked hit list for a query.  The second component is the log:
on zero hits the function prints the filename and returns `None`; otherwise
it returns the first hit's `_source`. -/
def get_frame_metadata (search : Query → List FrameRecord) (filename : String) :
    Option FrameRecord × List String :=
  match search (metadataQuery filename) with
  | [] => (none, [filename])
  | h :: _ => (some h, [])

/-- `[f x₁, ..., f xₙ]` in the `Option` monad: `none` as soon as one
application fails (a raised exception inside a Python list comprehension /
loop aborts the whole expression). -/
def optionMapList (f : α → Option β) : List α → Option (List β)
  | [] => some []
  | x :: xs =>
    match f x, optionMapList f xs with
    | some y, some ys => some (y :: ys)
    | _, _ => none

/-- `get_nearest_calibration_frames` (source lines 75–116).  Returns the
produced object keys (`none` models an uncaught Python exception: the
`AttributeError` from `None.strftime` when `DATE-OBS` is `'N/A'`, the
`ValueError` from `strptime`, or the `IndexError` inside
`make_s3_prefix_from_filename`) together with the list of queries issued
against the index, in order. -/
def get_nearest_calibration_frames (search : Query → List FrameRecord)
    (obstype : String) (n_frames : Nat) (filename : String) :
    Option (List String) × List Query :=
  match (get_frame_metadata search filename).1 with
  | none => (some [], [metadataQuery filename])
  | some frame_metadata =>
    let match_filters :=
      [("OBSTYPE", obstype), ("SITEID", frame_metadata.SITEID),
       ("INSTRUME", frame_metadata.INSTRUME)]
    let match_filters :=
      if obstype == "SKYFLAT" then match_filters ++ [("FILTER", frame_metadata.FILTER)]
      else match_filters
    match parse_date_obs frame_metadata.DATE_OBS with
    | ParseResult.raised => (none, [metadataQuery filename])
    | ParseResult.value none => (none, [metadataQuery filename])
    | ParseResult.value (some d) =>
      let input_date_obs := dateOrigin d
      let query := Query.functionScore match_filters input_date_obs "1h" "0.999" n_frames
      let results := search query
      let filenames :=
        (results.filter (fun r => occursIn "00.fits".data r.filename.data)).map
          (fun r => r.filename)
      (optionMapList make_s3_prefix_from_filename filenames,
       [metadataQuery filename, query])

/-! ## Restore orchestrator (source lines 119–141) -/

/-- One `s3.restore_object` call as issued by `thaw_files`: bucket, key, a
fixed one-day retention window and the selected retrieval tier. -/
structure RestoreRequest where
  bucket : String
  key : String
  days : Nat
  tier : String
deriving DecidableEq, Repr

/-- The `for object_key in object_keys` sweep of `thaw_files`.  `restore k`
is the outcome of `s3.restore_object` for key `k`: `none` on success, or
`some msg` when it raises with exception text `msg`.  Returns the issued
requests and either the accumulated `dead_references` (keys whose exception
text contains `'NoSuchKey'`; `'RestoreAlreadyInProgress'` is ignored) or the
first unrecognised exception, which is re-raised and stops the sweep. -/
def thawSweep (bucket tier : String) (restore : String → Option String) :
    List String → List RestoreRequest × Except (String × String) (List String)
  | [] => ([], Except.ok [])
  | k :: ks =>
    let req : RestoreRequest := ⟨bucket, k, 1, tier⟩
    match restore k with
    | none =>
      let rest := thawSweep bucket tier restore ks
      (req :: rest.1, rest.2)
    | some msg =>
      if occursIn "NoSuchKey".data msg.data then
        let rest := thawSweep bucket tier restore ks
        (req :: rest.1, rest.2.map (fun dead => k :: dead))
      else if occursIn "RestoreAlreadyInProgress".data msg.data then
        let rest := thawSweep bucket tier restore ks
        (req :: rest.1, rest.2)
      else ([req], Except.error (k, msg))

/-- `thaw_files` (source lines 119–141).  Returns the issued restore
requests, the final value of the `object_keys` set, and the propagated
exception if one was re-raised.  The tidy step
`object_keys -= set(dead_references)` runs only after the sweep completes;
when the sweep re-raises, the set is left as it was at entry. -/
def thaw_files (object_keys : List String) (bucket_name : String)
    (restore : String → Option String) (thaw_mode : String) :
    List RestoreRequest × List String × Option (String × String) :=
  match thawSweep bucket_name thaw_mode restore object_keys with
  | (reqs, Except.error e) => (reqs, object_keys, some e)
  | (reqs, Except.ok dead) =>
    (reqs, object_keys.filter (fun k => !(dead.contains k)), none)

/-! ## Restore waiter (source lines 144–155) -/

/-- Source line 151: an object is restored when the `head_object` response
has a `Restore` field containing `ongoing-request="false"` — restoration
complete and no longer in progress. -/
def restoreComplete (restoreField : Option String) : Bool :=
  match restoreField with
  | some s => occursIn "ongoing-request=\"false\"".data s.data
  | none => false

/-- One `for object_key in object_keys` pass of the waiter: keys not yet in
`restored_objects` are polled (`head` is the `Restore` field of
`head_object` for that key) and appended when restored. -/
def thawPollSweep (head : String → Option String) :
    List String → List String → List String
  | [], restored => restored
  | k :: ks, restored =>
    if k ∈ restored then thawPollSweep head ks restored
    else if restoreComplete (head k) then thawPollSweep head ks (restored ++ [k])
    else thawPollSweep head ks restored

/-- The `while` loop of `wait_for_files_to_thaw`.  `head rnd k` is the
`Restore` field reported for key `k` during polling cycle `rnd`; each
iteration of the loop body ends with `time.sleep(300)`, counted in the
result.  `fuel` bounds the number of iterations (the Python loop has no
timeout); `none` means the loop was still running when the fuel ran out.
On return: the number of sleeps performed and the final
`restored_objects`. -/
def waitLoop (object_keys : List String) (head : Nat → String → Option String) :
    Nat → Nat → List String → Nat → Option (Nat × List String)
  | fuel, rnd, restored, sleeps =>
    if restored.length < object_keys.length then
      match fuel with
      | 0 => none
      | f + 1 =>
        waitLoop object_keys head f (rnd + 1)
          (thawPollSweep (head rnd) object_keys restored) (sleeps + 1)
    else some (sleeps, restored)

/-- `wait_for_files_to_thaw` (source lines 144–155). -/
def wait_for_files_to_thaw (object_keys : List String)
    (head : Nat → String → Option String) (fuel : Nat) : Option (Nat × List String) :=
  waitLoop object_keys head fuel 0 [] 0

/-! ## Downloader and `__main__` (source lines 158–195) -/

/-- `os.path.join(base, p)` for the relative paths used here. -/
def pathJoin (base p : String) : String :=
  if isSuffix "/".data base.data then base ++ p else base ++ "/" ++ p

/-- `download_thawed_files` (source lines 158–166).  `download k` tells
whether `s3.download_file` succeeds for key `k`; a failure is caught, logged
as skipped, and the loop continues.  Returns the pairs
`(object_key, download_path)` actually downloaded and the skipped keys. -/
def download_thawed_files (object_keys : List String) (base_dir bucket_name : String)
    (download : String → Bool) : List (String × String) × List String :=
  match object_keys with
  | [] => ([], [])
  | k :: ks =>
    let download_path := pathJoin base_dir k
    let rest := download_thawed_files ks base_dir bucket_name download
    if download k then ((k, download_path) :: rest.1, rest.2)
    else (rest.1, k :: rest.2)

/-- First whitespace-delimited token of a line, if any — the `col1` column
value `astropy.io.ascii.read(..., format='no_header')` yields for it. -/
def firstToken (line : String) : Option String :=
  let t := line.data.dropWhile (fun c => c == ' ' || c == '\t')
  match t with
  | [] => none
  | _ => some ⟨t.takeWhile (fun c => ¬ (c == ' ' || c == '\t'))⟩

/-- Source line 185: the frame list read from the input file —
`ascii.read(args.frame_list, format='no_header')['col1']`, the first
whitespace-delimited column of each non-empty line (`astropy` is an external
collaborator; this models its documented column extraction). -/
def read_frame_list (lines : List String) : List String :=
  lines.filterMap firstToken

/-- Everything the program observably does to its collaborators in one run:
restore requests issued, polling cycles performed, files downloaded
(key, local path) and downloads skipped. -/
structure PipelineTrace where
  restoreRequests : List RestoreRequest
  pollCycles : Nat
  downloads : List (String × String)
  skipped : List String
deriving DecidableEq, Repr

/-- The `__main__` block (source lines 168–195): after argument parsing it
reads the frame list and calls `download_thawed_files(files_to_restore,
args.output_dir, args.bucket, s3)` — and nothing else.  No object key is
resolved via `make_s3_prefix_from_filename`, `thaw_files` is never called
(so no restore request is issued) and `wait_for_files_to_thaw` is never
called (so no polling happens); the listed filenames are used directly as
object keys. -/
def main_program (frameLines : List String) (output_dir bucket : String)
    (download : String → Bool) : PipelineTrace :=
  let files_to_restore := read_frame_list frameLines
  let d := download_thawed_files files_to_restore output_dir bucket download
  ⟨[], 0, d.1, d.2⟩

/-! ## Claims -/

/-- C5: `parse_date_obs` maps `"2020-01-01"` to midnight of that date with
zero fractional seconds, `"2020-01-01T10:30:00"` to a timestamp whose
fractional part is padded to six zero digits, `"2020-01-01T10:30:00.5"` to
one padded to 500000 microseconds, and the sentinel `"N/A"` to no timestamp
(`None`). -/
theorem C5_thm :
    parse_date_obs "2020-01-01" = ParseResult.value (some ⟨2020, 1, 1, 0, 0, 0, 0⟩) ∧
    parse_date_obs "2020-01-01T10:30:00" =
      ParseResult.value (some ⟨2020, 1, 1, 10, 30, 0, 0⟩) ∧
    parse_date_obs "2020-01-01T10:30:00.5" =
      ParseResult.value (some ⟨2020, 1, 1, 10, 30, 0, 500000⟩) ∧
    parse_date_obs "N/A" = ParseResult.value none := by
  refine ⟨?_, ?_, ?_, ?_⟩ <;> decide

/-- C1 (code behaviour at the spec's end-to-end input): the `__main__` block
downloads each listed filename directly — as its own object key, to
`{output-dir}/{filename}` — and issues no restore request and no polling
cycle; the convention object key `coj/kb24/20200101/raw/...fits.fz` that the
filenames resolve to is never used, even though `make_s3_prefix_from_filename`
would produce it. -/
theorem C1_code_behavior :
    main_program
        ["coj0m405-kb24-20200101-0001-00.fits", "coj0m405-kb24-20200101-0002-00.fits"]
        "out" "test-bucket" (fun _ => true) =
      ⟨[], 0,
        [("coj0m405-kb24-20200101-0001-00.fits", "out/coj0m405-kb24-20200101-0001-00.fits"),
         ("coj0m405-kb24-20200101-0002-00.fits", "out/coj0m405-kb24-20200101-0002-00.fits")],
        []⟩ ∧
    make_s3_prefix_from_filename "coj0m405-kb24-20200101-0001-00.fits" =
      some "coj/kb24/20200101/raw/coj0m405-kb24-20200101-0001-00.fits.fz" := by
  refine ⟨?_, ?_⟩ <;> decide

/-- C8: when the target frame's metadata lookup returns no record,
`get_nearest_calibration_frames` returns the empty list, and the only query
it ever issued is the metadata lookup itself — the relevance
(`function_score`) query is never submitted. -/
theorem C8_thm (search : Query → List FrameRecord) (obstype : String)
    (n_frames : Nat) (filename : String)
    (h : search (metadataQuery filename) = []) :
    get_nearest_calibration_frames search obstype n_frames filename =
      (some [], [metadataQuery filename]) := by
  unfold get_nearest_calibration_frames get_frame_metadata
  rw [h]

/-- Witness for C8 at a concrete index with no hits. -/
theorem C8_witness :
    get_nearest_calibration_frames (fun _ => []) "BIAS" 3 "somefile.fits" =
      (some [], [metadataQuery "somefile.fits"]) :=
  C8_thm (fun _ => []) "BIAS" 3 "somefile.fits" rfl

/-- C9 (amended): a metadata record found in step 1 does *not* guarantee the
timestamp-formatting step executes: the step executes (equivalently, the
relevance query is issued, making the query trace two long) exactly when the
record's `DATE-OBS` parses to an actual timestamp; and when `DATE-OBS` is
the sentinel (`parse_date_obs` returns `None`), the call fails with an
uncaught error (`None.strftime` raises `AttributeError`). -/
theorem C9_thm (search : Query → List FrameRecord) (filename obstype : String)
    (n_frames : Nat) (m : FrameRecord)
    (hm : (get_frame_metadata search filename).1 = some m) :
    ((∃ d, parse_date_obs m.DATE_OBS = ParseResult.value (some d)) ↔
      (get_nearest_calibration_frames search obstype n_frames filename).2.length = 2) ∧
    (parse_date_obs m.DATE_OBS = ParseResult.value none →
      (get_nearest_calibration_frames search obstype n_frames filename).1 = none) := by
  unfold get_nearest_calibration_frames
  rw [hm]
  cases hp : parse_date_obs m.DATE_OBS with
  | raised => simp [hp]
  | value od =>
    cases od with
    | none => simp [hp]
    | some d => simp [hp]

/-- C9 counterexample: a concrete index whose metadata record has
`DATE-OBS = 'N/A'`.  The step-1 lookup succeeds, yet the formatting step
errors: the run crashes (`none`) with only the metadata query issued. -/
theorem C9_counterexample :
    (get_frame_metadata
        (fun q => match q with
          | Query.matchPhrase _ _ => [⟨"coj", "kb05", "up", "EXPOSE", "N/A", "f"⟩]
          | _ => [])
        "x").1 = some ⟨"coj", "kb05", "up", "EXPOSE", "N/A", "f"⟩ ∧
    parse_date_obs "N/A" = ParseResult.value none ∧
    (get_nearest_calibration_frames
        (fun q => match q with
          | Query.matchPhrase _ _ => [⟨"coj", "kb05", "up", "EXPOSE", "N/A", "f"⟩]
          | _ => [])
        "BIAS" 1 "x") = (none, [metadataQuery "x"]) := by
  refine ⟨?_, ?_, ?_⟩ <;> decide

/-- Witness for C9 at a concrete index whose record carries a parsable
timestamp: the formatting step executes and the relevance query is issued. -/
theorem C9_witness :
    ((∃ d, parse_date_obs (FrameRecord.DATE_OBS ⟨"coj", "kb05", "up", "EXPOSE", "2020-01-01", "f"⟩) =
        ParseResult.value (some d)) ↔
      (get_nearest_calibration_frames
        (fun q => match q with
          | Query.matchPhrase _ _ => [⟨"coj", "kb05", "up", "EXPOSE", "2020-01-01", "f"⟩]
          | _ => [])
        "BIAS" 1 "x").2.length = 2) ∧
    (parse_date_obs (FrameRecord.DATE_OBS ⟨"coj", "kb05", "up", "EXPOSE", "2020-01-01", "f"⟩) =
        ParseResult.value none →
      (get_nearest_calibration_frames
        (fun q => match q with
          | Query.matchPhrase _ _ => [⟨"coj", "kb05", "up", "EXPOSE", "2020-01-01", "f"⟩]
          | _ => [])
        "BIAS" 1 "x").1 = none) :=
  C9_thm
    (fun q => match q with
      | Query.matchPhrase _ _ => [⟨"coj", "kb05", "up", "EXPOSE", "2020-01-01", "f"⟩]
      | _ => [])
    "x" "BIAS" 1 ⟨"coj", "kb05", "up", "EXPOSE", "2020-01-01", "f"⟩ (by decide)

/-- Any exception re-raised by the `thaw_files` sweep comes from a key of the
input set whose `restore_object` call failed with text containing neither
`'NoSuchKey'` nor `'RestoreAlreadyInProgress'`. -/
theorem thawSweep_error_spec (bucket tier : String) (restore : String → Option String) :
    ∀ (keys : List String) (reqs : List RestoreRequest) (e : String × String),
      thawSweep bucket tier restore keys = (reqs, Except.error e) →
      e.1 ∈ keys ∧ restore e.1 = some e.2 ∧
      occursIn "NoSuchKey".data e.2.data = false ∧
      occursIn "RestoreAlreadyInProgress".data e.2.data = false := by
  intro keys
  induction keys with
  | nil =>
    intro reqs e h
    injection h with h1 h2
    exact absurd h2 (by simp)
  | cons k ks ih =>
    intro reqs e h
    rcases hsw : thawSweep bucket tier restore ks with ⟨reqs', out'⟩
    rw [thawSweep] at h
    cases hr : restore k with
    | none =>
      rw [hr, hsw] at h
      dsimp only at h
      injection h with hA hB
      obtain ⟨he1, he2, he3, he4⟩ := ih reqs' e (by rw [hsw, hB])
      exact ⟨List.mem_cons_of_mem k he1, he2, he3, he4⟩
    | some msg =>
      rw [hr] at h
      dsimp only at h
      by_cases h1 : occursIn "NoSuchKey".data msg.data = true
      · rw [if_pos h1, hsw] at h
        dsimp only at h
        injection h with hA hB
        cases out' with
        | ok dead =>
          simp only [Except.map] at hB
          exact Except.noConfusion hB
        | error e' =>
          simp only [Except.map] at hB
          injection hB with hee
          obtain ⟨he1, he2, he3, he4⟩ := ih reqs' e' hsw
          cases hee
          exact ⟨List.mem_cons_of_mem k he1, he2, he3, he4⟩
      · rw [if_neg h1] at h
        by_cases h2 : occursIn "RestoreAlreadyInProgress".data msg.data = true
        · rw [if_pos h2, hsw] at h
          dsimp only at h
          injection h with hA hB
          obtain ⟨he1, he2, he3, he4⟩ := ih reqs' e (by rw [hsw, hB])
          exact ⟨List.mem_cons_of_mem k he1, he2, he3, he4⟩
        · rw [if_neg h2] at h
          injection h with hA hB
          injection hB with hee
          cases hee
          refine ⟨List.mem_cons_self k ks, hr, ?_, ?_⟩
          · simpa using h1
          · simpa using h2

/-- Sweep behaviour on a set with (at most) one nonexistent key `bad` (whose
restore raises with `'NoSuchKey'` text) and otherwise valid keys: every key
gets a restore request and the sweep completes with exactly the occurrences
of `bad` collected as dead references. -/
theorem thawSweep_scenario (bucket tier bad msg : String)
    (restore : String → Option String)
    (hmsg : occursIn "NoSuchKey".data msg.data = true) :
    ∀ keys : List String,
      (∀ k ∈ keys, (k = bad → restore k = some msg) ∧ (k ≠ bad → restore k = none)) →
      thawSweep bucket tier restore keys =
        (keys.map (fun k => ⟨bucket, k, 1, tier⟩),
         Except.ok (keys.filter (fun k => k == bad))) := by
  intro keys
  induction keys with
  | nil => intro _; rfl
  | cons k ks ih =>
    intro h
    have hk := h k (List.mem_cons_self k ks)
    have hks : ∀ k' ∈ ks, (k' = bad → restore k' = some msg) ∧
        (k' ≠ bad → restore k' = none) :=
      fun k' hk' => h k' (List.mem_cons_of_mem k hk')
    rw [thawSweep]
    by_cases hb : k = bad
    · rw [hk.1 hb]
      dsimp only
      rw [if_pos hmsg, ih hks]
      have hkb : (k == bad) = true := beq_iff_eq.mpr hb
      simp [Except.map, List.filter_cons, hkb]
    · rw [hk.2 hb, ih hks]
      have hkb : (k == bad) = false := beq_eq_false_iff_ne.mpr hb
      simp [List.filter_cons, hkb]

/-- Classification used by the sweep's dead-reference collection: the
restore outcome for `k` raised with exception text containing
`'NoSuchKey'`. -/
def noSuchKeyFailed (restore : String → Option String) (k : String) : Bool :=
  match restore k with
  | some m => occursIn "NoSuchKey".data m.data
  | none => false

/-- Removing the members of `keys.filter p` from `keys` is removing the keys
satisfying `p` (the `object_keys -= set(dead_references)` tidy step). -/
theorem filter_not_contains_filter (keys : List String) (p : String → Bool) :
    keys.filter (fun k => !((keys.filter p).contains k)) =
      keys.filter (fun k => !(p k)) := by
  apply List.filter_congr
  intro x hx
  congr 1
  by_cases hp : p x = true
  · have hmem : x ∈ keys.filter p := List.mem_filter.mpr ⟨hx, hp⟩
    have h1 : (keys.filter p).contains x = true := List.elem_iff.mpr hmem
    rw [h1, hp]
  · have h2 : p x = false := by
      cases hpx : p x
      · rfl
      · exact absurd hpx hp
    have hmem : x ∉ keys.filter p := fun hmem => hp (List.mem_filter.mp hmem).2
    have h1 : (keys.filter p).contains x = false := by
      cases hcc : (keys.filter p).contains x
      · rfl
      · exact absurd (List.elem_iff.mp hcc) hmem
    rw [h1, h2]

/-- Sweep behaviour when every key's restore either succeeds or raises one of
the two tolerated exception texts: no exception propagates, every key gets a
restore request, and the dead references collected are exactly the keys that
failed with `'NoSuchKey'` (a restore already in progress is ignored — its key
is neither collected nor skipped). -/
theorem thawSweep_tolerated (bucket tier : String) (restore : String → Option String) :
    ∀ keys : List String,
      (∀ k ∈ keys, restore k = none ∨ ∃ msg, restore k = some msg ∧
          (occursIn "NoSuchKey".data msg.data = true ∨
           occursIn "RestoreAlreadyInProgress".data msg.data = true)) →
      thawSweep bucket tier restore keys =
        (keys.map (fun k => ⟨bucket, k, 1, tier⟩),
         Except.ok (keys.filter (noSuchKeyFailed restore))) := by
  intro keys
  induction keys with
  | nil => intro _; rfl
  | cons k ks ih =>
    intro h
    have hks := ih (fun k' hk' => h k' (List.mem_cons_of_mem k hk'))
    rcases h k (List.mem_cons_self k ks) with hnone | ⟨msg, hmsg, hcase⟩
    · have hpred : noSuchKeyFailed restore k = false := by
        unfold noSuchKeyFailed
        rw [hnone]
      rw [thawSweep, hnone, hks]
      simp [List.filter_cons, hpred]
    · by_cases h1 : occursIn "NoSuchKey".data msg.data = true
      · have hpred : noSuchKeyFailed restore k = true := by
          unfold noSuchKeyFailed
          rw [hmsg]
          exact h1
        rw [thawSweep, hmsg]
        dsimp only
        rw [if_pos h1, hks]
        simp [Except.map, List.filter_cons, hpred]
      · have h2 : occursIn "RestoreAlreadyInProgress".data msg.data = true := by
          rcases hcase with hx | hx
          exacts [absurd hx h1, hx]
        have hpred : noSuchKeyFailed restore k = false := by
          unfold noSuchKeyFailed
          rw [hmsg]
          simpa using h1
        rw [thawSweep, hmsg]
        dsimp only
        rw [if_neg h1, if_pos h2, hks]
        simp [List.filter_cons, hpred]

/-- When the sweep, after a prefix of tolerated outcomes, reaches a key whose
restore raises with text matching neither tolerated condition, it stops
there: restore requests are issued for the prefix and the fatal key only —
nothing after it — and that exception is re-raised. -/
theorem thawSweep_fatal (bucket tier bad msg : String)
    (restore : String → Option String)
    (hmsg1 : occursIn "NoSuchKey".data msg.data = false)
    (hmsg2 : occursIn "RestoreAlreadyInProgress".data msg.data = false)
    (hbad : restore bad = some msg) :
    ∀ pre : List String,
      (∀ k ∈ pre, restore k = none ∨ ∃ m, restore k = some m ∧
        (occursIn "NoSuchKey".data m.data = true ∨
         occursIn "RestoreAlreadyInProgress".data m.data = true)) →
      ∀ post : List String,
        thawSweep bucket tier restore (pre ++ bad :: post) =
          ((pre ++ [bad]).map (fun k => ⟨bucket, k, 1, tier⟩),
           Except.error (bad, msg)) := by
  intro pre
  induction pre with
  | nil =>
    intro _ post
    simp only [List.nil_append]
    rw [thawSweep, hbad]
    dsimp only
    rw [if_neg (by simp [hmsg1]), if_neg (by simp [hmsg2])]
    rfl
  | cons k pre ih =>
    intro h post
    have hks := ih (fun k' hk' => h k' (List.mem_cons_of_mem k hk')) post
    simp only [List.cons_append]
    rcases h k (List.mem_cons_self k _) with hnone | ⟨m, hm, hcase⟩
    · rw [thawSweep, hnone, hks]
      rfl
    · by_cases h1 : occursIn "NoSuchKey".data m.data = true
      · rw [thawSweep, hm]
        dsimp only
        rw [if_pos h1, hks]
        simp [Except.map]
      · have h2 : occursIn "RestoreAlreadyInProgress".data m.data = true := by
          rcases hcase with hx | hx
          exacts [absurd hx h1, hx]
        rw [thawSweep, hm]
        dsimp only
        rw [if_neg h1, if_pos h2, hks]
        rfl

/-- C3: `thaw_files` recovers exactly two failure conditions locally — a key
absent from storage (exception text contains `'NoSuchKey'`: the key is
collected as a dead reference, removed from the working set after the sweep,
and processing continues) and a restore already in progress (text contains
`'RestoreAlreadyInProgress'`: ignored, processing continues — the key also
stays in the set); any other failure propagates immediately and aborts the
batch.  First conjunct: on a set with one nonexistent key `bad` and
otherwise valid keys, every key still gets a restore request and only `bad`
is removed.  Second conjunct (the fatal case, forward): when a key whose
restore raises an unrecognised exception follows a prefix of tolerated
outcomes, that exception propagates, restore requests stop at the fatal key
(none is issued for the keys after it), and the set is unchanged.  Third
conjunct (the fatal case, converse): a propagated exception can only come
from a key whose failure text matched neither tolerated condition.  Fourth
conjunct: when every key's outcome is success or a tolerated condition,
no exception propagates, every key is requested, and exactly the
`'NoSuchKey'` keys are removed — successful and already-in-progress keys
remain in the set. -/
theorem C3_thm :
    (∀ (keys : List String) (bucket thaw_mode bad msg : String)
        (restore : String → Option String),
        occursIn "NoSuchKey".data msg.data = true →
        (∀ k ∈ keys, (k = bad → restore k = some msg) ∧ (k ≠ bad → restore k = none)) →
        thaw_files keys bucket restore thaw_mode =
          (keys.map (fun k => ⟨bucket, k, 1, thaw_mode⟩),
           keys.filter (fun k => !(k == bad)), none)) ∧
    (∀ (bucket thaw_mode bad msg : String) (restore : String → Option String)
        (pre post : List String),
        occursIn "NoSuchKey".data msg.data = false →
        occursIn "RestoreAlreadyInProgress".data msg.data = false →
        restore bad = some msg →
        (∀ k ∈ pre, restore k = none ∨ ∃ m, restore k = some m ∧
          (occursIn "NoSuchKey".data m.data = true ∨
           occursIn "RestoreAlreadyInProgress".data m.data = true)) →
        thaw_files (pre ++ bad :: post) bucket restore thaw_mode =
          ((pre ++ [bad]).map (fun k => ⟨bucket, k, 1, thaw_mode⟩),
           pre ++ bad :: post, some (bad, msg))) ∧
    (∀ (keys : List String) (bucket thaw_mode : String)
        (restore : String → Option String) (reqs : List RestoreRequest)
        (remaining : List String) (e : String × String),
        thaw_files keys bucket restore thaw_mode = (reqs, remaining, some e) →
        e.1 ∈ keys ∧ restore e.1 = some e.2 ∧
        occursIn "NoSuchKey".data e.2.data = false ∧
        occursIn "RestoreAlreadyInProgress".data e.2.data = false) ∧
    (∀ (keys : List String) (bucket thaw_mode : String)
        (restore : String → Option String),
        (∀ k ∈ keys, restore k = none ∨ ∃ msg, restore k = some msg ∧
          (occursIn "NoSuchKey".data msg.data = true ∨
           occursIn "RestoreAlreadyInProgress".data msg.data = true)) →
        thaw_files keys bucket restore thaw_mode =
          (keys.map (fun k => ⟨bucket, k, 1, thaw_mode⟩),
           keys.filter (fun k => !(noSuchKeyFailed restore k)), none)) := by
  refine ⟨?_, ?_, ?_, ?_⟩
  · intro keys bucket thaw_mode bad msg restore hmsg hres
    unfold thaw_files
    rw [thawSweep_scenario bucket thaw_mode bad msg restore hmsg keys hres]
    dsimp only
    rw [filter_not_contains_filter keys (fun k' => k' == bad)]
  · intro bucket thaw_mode bad msg restore pre post hmsg1 hmsg2 hbad htol
    unfold thaw_files
    rw [thawSweep_fatal bucket thaw_mode bad msg restore hmsg1 hmsg2 hbad pre htol post]
  · intro keys bucket thaw_mode restore reqs remaining e h
    unfold thaw_files at h
    rcases hsw : thawSweep bucket thaw_mode restore keys with ⟨reqs2, out2⟩
    rw [hsw] at h
    cases out2 with
    | ok dead =>
      dsimp only at h
      injection h with hA hB
      injection hB with hB1 hB2
      exact Option.noConfusion hB2
    | error e2 =>
      dsimp only at h
      injection h with hA hB
      injection hB with hB1 hB2
      injection hB2 with hee
      exact hee ▸ thawSweep_error_spec bucket thaw_mode restore keys reqs2 e2 hsw
  · intro keys bucket thaw_mode restore htol
    unfold thaw_files
    rw [thawSweep_tolerated bucket thaw_mode restore keys htol]
    dsimp only
    rw [filter_not_contains_filter keys (noSuchKeyFailed restore)]

/-- Witness for C3, exercising the scenario, fatal and tolerated conjuncts:
a set whose middle key does not exist in storage (all three keys requested,
only the dead key removed, no exception); a fatal `AccessDenied` after one
valid key (the error propagates, the key after it is never requested, the
set is unchanged); and a tolerated-only run with one success, one dead key
and one restore-in-progress (no exception, the in-progress key stays). -/
theorem C3_witness :
    (thaw_files ["coj/kb24/20200101/raw/a.fits.fz", "missing",
        "coj/kb24/20200101/raw/b.fits.fz"]
        "test-bucket"
        (fun k => if k = "missing" then
          some "An error occurred (NoSuchKey) when calling the RestoreObject operation"
          else none)
        "Standard" =
      (["coj/kb24/20200101/raw/a.fits.fz", "missing",
        "coj/kb24/20200101/raw/b.fits.fz"].map
          (fun k => ⟨"test-bucket", k, 1, "Standard"⟩),
       ["coj/kb24/20200101/raw/a.fits.fz", "missing",
        "coj/kb24/20200101/raw/b.fits.fz"].filter (fun k => !(k == "missing")),
       none)) ∧
    (thaw_files (["ok"] ++ "boom" :: ["after"]) "test-bucket"
        (fun k => if k = "boom" then some "AccessDenied" else none) "Standard" =
      ((["ok"] ++ ["boom"]).map (fun k => ⟨"test-bucket", k, 1, "Standard"⟩),
       ["ok"] ++ "boom" :: ["after"], some ("boom", "AccessDenied"))) ∧
    (thaw_files ["ok1", "dead", "prog"] "test-bucket"
        (fun k => if k = "dead" then some "NoSuchKey" else
          if k = "prog" then some "RestoreAlreadyInProgress" else none) "Standard" =
      (["ok1", "dead", "prog"].map (fun k => ⟨"test-bucket", k, 1, "Standard"⟩),
       ["ok1", "dead", "prog"].filter (fun k =>
         !(noSuchKeyFailed (fun k => if k = "dead" then some "NoSuchKey" else
           if k = "prog" then some "RestoreAlreadyInProgress" else none) k)),
       none)) :=
  ⟨C3_thm.1 ["coj/kb24/20200101/raw/a.fits.fz", "missing",
      "coj/kb24/20200101/raw/b.fits.fz"]
    "test-bucket" "Standard" "missing"
    "An error occurred (NoSuchKey) when calling the RestoreObject operation"
    (fun k => if k = "missing" then
      some "An error occurred (NoSuchKey) when calling the RestoreObject operation"
      else none)
    (by decide) (by decide),
  C3_thm.2.1 "test-bucket" "Standard" "boom" "AccessDenied"
    (fun k => if k = "boom" then some "AccessDenied" else none)
    ["ok"] ["after"] (by decide) (by decide) (by decide)
    (by
      intro k hk
      cases List.mem_singleton.mp hk
      exact Or.inl rfl),
  C3_thm.2.2.2 ["ok1", "dead", "prog"] "test-bucket" "Standard"
    (fun k => if k = "dead" then some "NoSuchKey" else
      if k = "prog" then some "RestoreAlreadyInProgress" else none)
    (by
      intro k hk
      rcases List.mem_cons.mp hk with rfl | hk
      · exact Or.inl rfl
      rcases List.mem_cons.mp hk with rfl | hk
      · exact Or.inr ⟨"NoSuchKey", rfl, Or.inl (by decide)⟩
      rcases List.mem_cons.mp hk with rfl | hk
      · exact Or.inr ⟨"RestoreAlreadyInProgress", rfl, Or.inr (by decide)⟩
      · exact absurd hk (List.not_mem_nil k))⟩

/-- C10: when the sweep hits a fatal (untolerated) restore failure, the
exception propagates with the input key set exactly as it was at entry — no
key has been removed, including dead references already discovered during
the same sweep, because removal happens only after the full sweep. -/
theorem C10_thm (keys : List String) (bucket thaw_mode : String)
    (restore : String → Option String) (reqs : List RestoreRequest)
    (remaining : List String) (e : String × String)
    (h : thaw_files keys bucket restore thaw_mode = (reqs, remaining, some e)) :
    remaining = keys ∧ e.1 ∈ keys ∧ restore e.1 = some e.2 := by
  unfold thaw_files at h
  rcases hsw : thawSweep bucket thaw_mode restore keys with ⟨reqs', out'⟩
  rw [hsw] at h
  cases out' with
  | ok dead =>
    dsimp only at h
    injection h with hA hB
    injection hB with hB1 hB2
    exact Option.noConfusion hB2
  | error e2 =>
    dsimp only at h
    injection h with hA hB
    injection hB with hB1 hB2
    injection hB2 with hee
    obtain ⟨he1, he2, -, -⟩ :=
      thawSweep_error_spec bucket thaw_mode restore keys reqs' e2 hsw
    exact ⟨hB1.symm, hee ▸ he1, hee ▸ he2⟩

/-- Witness for C10: a sweep that discovers a dead reference (`"dead"`,
`NoSuchKey`) and then hits a fatal `AccessDenied` failure on `"boom"` — the
propagated error leaves the key set untouched, dead reference included. -/
theorem C10_witness :
    (["dead", "boom", "x"] : List String) = ["dead", "boom", "x"] ∧
    ("boom" : String) ∈ (["dead", "boom", "x"] : List String) ∧
    (fun k => if k = "dead" then some "NoSuchKey" else
      if k = "boom" then some "AccessDenied" else none : String → Option String)
        "boom" = some "AccessDenied" :=
  C10_thm ["dead", "boom", "x"] "test-bucket" "Standard"
    (fun k => if k = "dead" then some "NoSuchKey" else
      if k = "boom" then some "AccessDenied" else none)
    [⟨"test-bucket", "dead", 1, "Standard"⟩, ⟨"test-bucket", "boom", 1, "Standard"⟩]
    ["dead", "boom", "x"] ("boom", "AccessDenied") (by decide)

theorem thawPollSweep_subset (head : String → Option String) :
    ∀ (keys acc : List String), acc ⊆ thawPollSweep head keys acc := by
  intro keys
  induction keys with
  | nil => intro acc x hx; exact hx
  | cons k ks ih =>
    intro acc
    rw [thawPollSweep]
    by_cases h1 : k ∈ acc
    · rw [if_pos h1]; exact ih acc
    · rw [if_neg h1]
      by_cases h2 : restoreComplete (head k) = true
      · rw [if_pos h2]
        exact fun x hx => ih (acc ++ [k]) (List.mem_append_left [k] hx)
      · rw [if_neg h2]; exact ih acc

theorem thawPollSweep_mem (head : String → Option String) :
    ∀ (keys acc : List String) (x : String), x ∈ thawPollSweep head keys acc →
      x ∈ acc ∨ (x ∈ keys ∧ restoreComplete (head x) = true) := by
  intro keys
  induction keys with
  | nil => intro acc x hx; exact Or.inl hx
  | cons k ks ih =>
    intro acc x hx
    rw [thawPollSweep] at hx
    by_cases h1 : k ∈ acc
    · rw [if_pos h1] at hx
      rcases ih acc x hx with h | ⟨hk, hc⟩
      · exact Or.inl h
      · exact Or.inr ⟨List.mem_cons_of_mem k hk, hc⟩
    · rw [if_neg h1] at hx
      by_cases h2 : restoreComplete (head k) = true
      · rw [if_pos h2] at hx
        rcases ih (acc ++ [k]) x hx with h | ⟨hk, hc⟩
        · rcases List.mem_append.mp h with h | h
          · exact Or.inl h
          · have hxk : x = k := List.mem_singleton.mp h
            exact Or.inr ⟨hxk ▸ List.mem_cons_self k ks, hxk ▸ h2⟩
        · exact Or.inr ⟨List.mem_cons_of_mem k hk, hc⟩
      · rw [if_neg h2] at hx
        rcases ih acc x hx with h | ⟨hk, hc⟩
        · exact Or.inl h
        · exact Or.inr ⟨List.mem_cons_of_mem k hk, hc⟩

theorem thawPollSweep_nodup (head : String → Option String) :
    ∀ (keys acc : List String), acc.Nodup → (thawPollSweep head keys acc).Nodup := by
  intro keys
  induction keys with
  | nil => intro acc h; exact h
  | cons k ks ih =>
    intro acc h
    rw [thawPollSweep]
    by_cases h1 : k ∈ acc
    · rw [if_pos h1]; exact ih acc h
    · rw [if_neg h1]
      by_cases h2 : restoreComplete (head k) = true
      · rw [if_pos h2]
        refine ih (acc ++ [k]) ?_
        rw [List.nodup_append]
        exact ⟨h, List.nodup_singleton k,
          fun a ha hb => (List.mem_singleton.mp hb ▸ h1) ha⟩
      · rw [if_neg h2]; exact ih acc h

/-- When every key is already restored and none has been recorded yet, one
sweep records them all, in order. -/
theorem thawPollSweep_all (head : String → Option String) :
    ∀ (keys acc : List String), keys.Nodup →
      (∀ k ∈ keys, restoreComplete (head k) = true) →
      (∀ k ∈ keys, k ∉ acc) →
      thawPollSweep head keys acc = acc ++ keys := by
  intro keys
  induction keys with
  | nil => intro acc _ _ _; simp [thawPollSweep]
  | cons k ks ih =>
    intro acc hnd hc hna
    rw [thawPollSweep, if_neg (hna k (List.mem_cons_self k ks)),
      if_pos (hc k (List.mem_cons_self k ks))]
    rw [ih (acc ++ [k]) (List.Nodup.of_cons hnd)
      (fun k' hk' => hc k' (List.mem_cons_of_mem k hk'))
      (fun k' hk' hmem => by
        rcases List.mem_append.mp hmem with h | h
        · exact hna k' (List.mem_cons_of_mem k hk') h
        · exact (List.nodup_cons.mp hnd).1 (List.mem_singleton.mp h ▸ hk'))]
    simp

theorem waitLoop_eq (keys : List String) (head : Nat → String → Option String)
    (fuel rnd : Nat) (restored : List String) (sleeps : Nat) :
    waitLoop keys head fuel rnd restored sleeps =
      if restored.length < keys.length then
        match fuel with
        | 0 => none
        | f + 1 =>
          waitLoop keys head f (rnd + 1) (thawPollSweep (head rnd) keys restored)
            (sleeps + 1)
      else some (sleeps, restored) := by
  rw [waitLoop.eq_def]

/-- Invariant of the waiter's `while` loop: on return, `restored_objects`
has only grown, every recorded key was observed restored during some polling
cycle, it is at least as long as `object_keys`, and it stays duplicate-free
and inside `object_keys` when it started that way. -/
theorem waitLoop_spec (keys : List String) (head : Nat → String → Option String) :
    ∀ (fuel rnd sleeps : Nat) (restored : List String) (s2 : Nat) (R : List String),
      waitLoop keys head fuel rnd restored sleeps = some (s2, R) →
      restored ⊆ R ∧
      (∀ x ∈ R, x ∈ restored ∨ ∃ r, x ∈ keys ∧ restoreComplete (head r x) = true) ∧
      keys.length ≤ R.length ∧
      (restored.Nodup → R.Nodup) ∧
      (restored ⊆ keys → R ⊆ keys) := by
  intro fuel
  induction fuel with
  | zero =>
    intro rnd sleeps restored s2 R h
    rw [waitLoop_eq] at h
    by_cases hlt : restored.length < keys.length
    · rw [if_pos hlt] at h
      exact Option.noConfusion h
    · rw [if_neg hlt] at h
      injection h with h1
      injection h1 with h2 h3
      cases h3
      exact ⟨fun x hx => hx, fun x hx => Or.inl hx, Nat.le_of_not_lt hlt,
        fun h => h, fun h => h⟩
  | succ f ih =>
    intro rnd sleeps restored s2 R h
    rw [waitLoop_eq] at h
    by_cases hlt : restored.length < keys.length
    · rw [if_pos hlt] at h
      dsimp only at h
      obtain ⟨hsub, hmem, hlen, hnd, hkeys⟩ :=
        ih (rnd + 1) (sleeps + 1) (thawPollSweep (head rnd) keys restored) s2 R h
      refine ⟨fun x hx => hsub (thawPollSweep_subset (head rnd) keys restored hx),
        ?_, hlen, ?_, ?_⟩
      · intro x hx
        rcases hmem x hx with hx' | hx'
        · rcases thawPollSweep_mem (head rnd) keys restored x hx' with h' | ⟨h1, h2⟩
          · exact Or.inl h'
          · exact Or.inr ⟨rnd, h1, h2⟩
        · exact Or.inr hx'
      · intro hr
        exact hnd (thawPollSweep_nodup (head rnd) keys restored hr)
      · intro hr
        refine hkeys ?_
        intro x hx
        rcases thawPollSweep_mem (head rnd) keys restored x hx with h' | ⟨h1, -⟩
        · exact hr h'
        · exact h1
    · rw [if_neg hlt] at h
      injection h with h1
      injection h1 with h2 h3
      cases h3
      exact ⟨fun x hx => hx, fun x hx => Or.inl hx, Nat.le_of_not_lt hlt,
        fun h => h, fun h => h⟩

/-- C2 (amended): first conjunct — for a duplicate-free key set,
`wait_for_files_to_thaw` returns only after every key has been observed,
during some polling cycle, with a storage status showing restoration
complete and no longer in progress.  Second conjunct — when every key of a
non-empty set is already restored at call time, the waiter returns after a
single polling sweep and exactly ONE sleep interval (not zero: the
`time.sleep(300)` at the end of the loop body runs before the `while`
condition is re-checked). -/
theorem C2_thm :
    (∀ (keys : List String) (head : Nat → String → Option String)
        (fuel s2 : Nat) (R : List String),
        keys.Nodup →
        wait_for_files_to_thaw keys head fuel = some (s2, R) →
        ∀ k ∈ keys, ∃ r, restoreComplete (head r k) = true) ∧
    (∀ (keys : List String) (head : Nat → String → Option String) (fuel : Nat),
        keys ≠ [] →
        (∀ k ∈ keys, restoreComplete (head 0 k) = true) →
        keys.Nodup →
        wait_for_files_to_thaw keys head (fuel + 1) = some (1, keys)) := by
  constructor
  · intro keys head fuel s2 R hnd h k hk
    obtain ⟨-, hmem, hlen, hndR, hkeys⟩ :=
      waitLoop_spec keys head fuel 0 0 [] s2 R h
    have hRnd : R.Nodup := hndR List.nodup_nil
    have hRk : R ⊆ keys := hkeys (List.nil_subset keys)
    have hperm : R.Perm keys :=
      List.Subperm.perm_of_length_le (List.subperm_of_subset hRnd hRk) hlen
    have hkR : k ∈ R := hperm.mem_iff.mpr hk
    rcases hmem k hkR with hfalse | ⟨r, -, hc⟩
    · exact absurd hfalse (List.not_mem_nil k)
    · exact ⟨r, hc⟩
  · intro keys head fuel hne hall hnd
    unfold wait_for_files_to_thaw
    rw [waitLoop_eq, if_pos (by
      simpa using List.length_pos.mpr hne)]
    dsimp only
    rw [thawPollSweep_all (head 0) keys [] hnd hall (fun k _ => List.not_mem_nil k),
      List.nil_append]
    rw [waitLoop_eq, if_neg (Nat.lt_irrefl keys.length)]

/-- C2 counterexample: a single pre-restored key — the waiter performs one
sleep before returning, so it does not return "without ever sleeping". -/
theorem C2_counterexample :
    wait_for_files_to_thaw ["coj/kb24/20200101/raw/a.fits.fz"]
        (fun _ _ => some "ongoing-request=\"false\"") 5 =
      some (1, ["coj/kb24/20200101/raw/a.fits.fz"]) ∧ (1 : Nat) ≠ 0 := by
  exact ⟨by decide, by decide⟩

/-- Witness for C2 at a concrete pre-restored key set. -/
theorem C2_witness :
    wait_for_files_to_thaw ["coj/kb24/20200101/raw/a.fits.fz"]
        (fun _ _ => some "ongoing-request=\"false\"") (3 + 1) =
      some (1, ["coj/kb24/20200101/raw/a.fits.fz"]) :=
  C2_thm.2 ["coj/kb24/20200101/raw/a.fits.fz"]
    (fun _ _ => some "ongoing-request=\"false\"") 3
    (by decide) (by decide) (by decide)

/-- The extension scrub of `get_frame_metadata` is insensitive to the
compression suffix: for a dot-free base name `X`, the inputs `X`, `X.fits`
and `X.fits.fz` all normalise to `X`. -/
theorem normalized_filename_eq (X : String) (h : '.' ∉ X.data) :
    normalized_filename X = X ∧
    normalized_filename (X ++ ".fits") = X ∧
    normalized_filename (X ++ ".fits.fz") = X := by
  have hcount : X.data.count '.' = 0 := List.count_eq_zero.mpr h
  have hXfits : listReplace X.data ".fits".data [] = X.data :=
    listReplace_of_not_occursIn _ _ _
      (not_occursIn_of_count_lt _ _ '.' (by rw [hcount]; decide))
  have hXfz : listReplace X.data ".fz".data [] = X.data :=
    listReplace_of_not_occursIn _ _ _
      (not_occursIn_of_count_lt _ _ '.' (by rw [hcount]; decide))
  have hb1 : listReplace (X.data ++ ".fits".data) ".fits".data [] = X.data := by
    have := listReplace_boundary X.data ".fits".data [] []
      ⟨"fits".data, by decide⟩ h
    simpa [listReplace_nil] using this
  have hb2 : listReplace (X.data ++ ".fits".data ++ ".fz".data) ".fits".data [] =
      X.data ++ ".fz".data := by
    have := listReplace_boundary X.data ".fits".data [] ".fz".data
      ⟨"fits".data, by decide⟩ h
    have hno : listReplace ".fz".data ".fits".data [] = ".fz".data := by decide
    simpa [hno] using this
  have hb3 : listReplace (X.data ++ ".fz".data) ".fz".data [] = X.data := by
    have := listReplace_boundary X.data ".fz".data [] []
      ⟨"fz".data, by decide⟩ h
    simpa [listReplace_nil] using this
  refine ⟨?_, ?_, ?_⟩
  · show (⟨listReplace (listReplace X.data ".fits".data []) ".fz".data []⟩ : String) = X
    rw [hXfits, hXfz]
  · show (⟨listReplace (listReplace (X.data ++ ".fits".data) ".fits".data [])
      ".fz".data []⟩ : String) = X
    rw [hb1, hXfz]
  · show (⟨listReplace (listReplace (X.data ++ ".fits.fz".data) ".fits".data [])
      ".fz".data []⟩ : String) = X
    have hdata : X.data ++ ".fits.fz".data = X.data ++ ".fits".data ++ ".fz".data := by
      rw [List.append_assoc]
      rfl
    rw [hdata, hb2, hb3]

/-- C7: `get_frame_metadata` issues the identical normalised query for
`X.fits`, `X.fits.fz` and the bare `X` (for a dot-free base name `X`), so
against the same index all three calls return the same metadata record; and
when the query yields zero hits it returns `None` and logs the filename. -/
theorem C7_thm (search : Query → List FrameRecord) (X : String)
    (h : '.' ∉ X.data) :
    metadataQuery (X ++ ".fits") = metadataQuery X ∧
    metadataQuery (X ++ ".fits.fz") = metadataQuery X ∧
    (get_frame_metadata search (X ++ ".fits")).1 = (get_frame_metadata search X).1 ∧
    (get_frame_metadata search (X ++ ".fits.fz")).1 = (get_frame_metadata search X).1 ∧
    (search (metadataQuery X) = [] → get_frame_metadata search X = (none, [X])) := by
  obtain ⟨hn0, hn1, hn2⟩ := normalized_filename_eq X h
  have hq1 : metadataQuery (X ++ ".fits") = metadataQuery X := by
    unfold metadataQuery
    rw [hn1, hn0]
  have hq2 : metadataQuery (X ++ ".fits.fz") = metadataQuery X := by
    unfold metadataQuery
    rw [hn2, hn0]
  refine ⟨hq1, hq2, ?_, ?_, ?_⟩
  · unfold get_frame_metadata
    rw [hq1]
    cases search (metadataQuery X) <;> rfl
  · unfold get_frame_metadata
    rw [hq2]
    cases search (metadataQuery X) <;> rfl
  · intro hs
    unfold get_frame_metadata
    rw [hs]

/-- Witness for C7 at the convention base name and an index with no hits. -/
theorem C7_witness :
    metadataQuery ("coj0m405-kb24-20200101-0001-00" ++ ".fits") =
      metadataQuery "coj0m405-kb24-20200101-0001-00" ∧
    metadataQuery ("coj0m405-kb24-20200101-0001-00" ++ ".fits.fz") =
      metadataQuery "coj0m405-kb24-20200101-0001-00" ∧
    (get_frame_metadata (fun _ => []) ("coj0m405-kb24-20200101-0001-00" ++ ".fits")).1 =
      (get_frame_metadata (fun _ => []) "coj0m405-kb24-20200101-0001-00").1 ∧
    (get_frame_metadata (fun _ => []) ("coj0m405-kb24-20200101-0001-00" ++ ".fits.fz")).1 =
      (get_frame_metadata (fun _ => []) "coj0m405-kb24-20200101-0001-00").1 ∧
    ((fun _ => ([] : List FrameRecord)) (metadataQuery "coj0m405-kb24-20200101-0001-00") = [] →
      get_frame_metadata (fun _ => []) "coj0m405-kb24-20200101-0001-00" =
        (none, ["coj0m405-kb24-20200101-0001-00"])) :=
  C7_thm (fun _ => []) "coj0m405-kb24-20200101-0001-00" (by decide)

/-- C6: for every filename matching the naming convention (a dot-free stem
whose site code spans at least three characters and which has at least four
hyphen-delimited segments, carrying a `.fits` or `.fits.fz` extension),
`make_s3_prefix_from_filename` produces the key
`{site}/{instrument}/{day-of-observation}/raw/{compressed-filename}` — the
same key for the `.fits` and the `.fits.fz` spelling — and that key ends in
`.fits.fz`. -/
theorem C6_thm (stem : String) (h1 : '.' ∉ stem.data)
    (h2 : 3 ≤ stem.data.length) (h3 : 4 ≤ (listSplit '-' stem.data).length) :
    make_s3_prefix_from_filename (stem ++ ".fits.fz") =
      make_s3_prefix_from_filename (stem ++ ".fits") ∧
    (∃ instrument dayobs : List Char,
      (listSplit '-' stem.data)[1]? = some instrument ∧
      (listSplit '-' stem.data)[2]? = some dayobs ∧
      make_s3_prefix_from_filename (stem ++ ".fits") =
        some ⟨stem.data.take 3 ++ '/' :: instrument ++ '/' :: dayobs ++
          "/raw/".data ++ (stem.data ++ ".fits.fz".data)⟩) ∧
    (∀ key, make_s3_prefix_from_filename (stem ++ ".fits") = some key →
      isSuffix ".fits.fz".data key.data = true) := by
  obtain ⟨instrument, hsi⟩ : ∃ i, (listSplit '-' stem.data)[1]? = some i := by
    cases hx : (listSplit '-' stem.data)[1]? with
    | none => exact absurd (List.getElem?_eq_none_iff.mp hx) (by omega)
    | some i => exact ⟨i, rfl⟩
  obtain ⟨dayobs, hsd⟩ : ∃ d, (listSplit '-' stem.data)[2]? = some d := by
    cases hx : (listSplit '-' stem.data)[2]? with
    | none => exact absurd (List.getElem?_eq_none_iff.mp hx) (by omega)
    | some d => exact ⟨d, rfl⟩
  have hd1 : (stem ++ ".fits").data = stem.data ++ ".fits".data := rfl
  have hd2 : (stem ++ ".fits.fz").data = stem.data ++ ".fits.fz".data := rfl
  have hs1 : listSplit '-' (stem.data ++ ".fits".data) =
      appendToLast ".fits".data (listSplit '-' stem.data) :=
    listSplit_append '-' _ _ (by decide)
  have hs2 : listSplit '-' (stem.data ++ ".fits.fz".data) =
      appendToLast ".fits.fz".data (listSplit '-' stem.data) :=
    listSplit_append '-' _ _ (by decide)
  have hg1a : (appendToLast ".fits".data (listSplit '-' stem.data))[1]? =
      some instrument := by
    rw [appendToLast_getElem? _ _ 1 (by omega), hsi]
  have hg1b : (appendToLast ".fits".data (listSplit '-' stem.data))[2]? =
      some dayobs := by
    rw [appendToLast_getElem? _ _ 2 (by omega), hsd]
  have hg2a : (appendToLast ".fits.fz".data (listSplit '-' stem.data))[1]? =
      some instrument := by
    rw [appendToLast_getElem? _ _ 1 (by omega), hsi]
  have hg2b : (appendToLast ".fits.fz".data (listSplit '-' stem.data))[2]? =
      some dayobs := by
    rw [appendToLast_getElem? _ _ 2 (by omega), hsd]
  have htake1 : (stem.data ++ ".fits".data).take 3 = stem.data.take 3 :=
    List.take_append_of_le_length h2
  have htake2 : (stem.data ++ ".fits.fz".data).take 3 = stem.data.take 3 :=
    List.take_append_of_le_length h2
  have hstemcount : stem.data.count '.' = 0 := List.count_eq_zero.mpr h1
  have hc1 : listReplace (stem.data ++ ".fits".data) ".fits.fz".data ".fits".data =
      stem.data ++ ".fits".data := by
    apply listReplace_of_not_occursIn
    apply not_occursIn_of_count_lt _ _ '.'
    rw [List.count_append, hstemcount]
    decide
  have hc2 : listReplace (stem.data ++ ".fits".data) ".fits".data ".fits.fz".data =
      stem.data ++ ".fits.fz".data := by
    have := listReplace_boundary stem.data ".fits".data ".fits.fz".data []
      ⟨"fits".data, by decide⟩ h1
    simpa [listReplace_nil] using this
  have hdd1 : listReplace (stem.data ++ ".fits.fz".data) ".fits.fz".data ".fits".data =
      stem.data ++ ".fits".data := by
    have := listReplace_boundary stem.data ".fits.fz".data ".fits".data []
      ⟨"fits.fz".data, by decide⟩ h1
    simpa [listReplace_nil] using this
  have hmake1 : make_s3_prefix_from_filename (stem ++ ".fits") =
      some ⟨stem.data.take 3 ++ '/' :: instrument ++ '/' :: dayobs ++
        "/raw/".data ++ (stem.data ++ ".fits.fz".data)⟩ := by
    unfold make_s3_prefix_from_filename
    rw [hd1, hs1]
    dsimp only
    rw [hg1a, hg1b]
    dsimp only
    rw [htake1, hc1, hc2]
  have hmake2 : make_s3_prefix_from_filename (stem ++ ".fits.fz") =
      some ⟨stem.data.take 3 ++ '/' :: instrument ++ '/' :: dayobs ++
        "/raw/".data ++ (stem.data ++ ".fits.fz".data)⟩ := by
    unfold make_s3_prefix_from_filename
    rw [hd2, hs2]
    dsimp only
    rw [hg2a, hg2b]
    dsimp only
    rw [htake2, hdd1, hc2]
  refine ⟨hmake2.trans hmake1.symm, ⟨instrument, dayobs, hsi, hsd, hmake1⟩, ?_⟩
  intro key hkey
  rw [hmake1] at hkey
  injection hkey with hk
  obtain ⟨Z, hZ⟩ : ∃ Z, stem.data.take 3 ++ '/' :: instrument ++ '/' :: dayobs ++
      "/raw/".data ++ (stem.data ++ ".fits.fz".data) = Z ++ ".fits.fz".data :=
    ⟨stem.data.take 3 ++ '/' :: instrument ++ '/' :: dayobs ++
      "/raw/".data ++ stem.data, by simp⟩
  rw [← hk]
  show isSuffix ".fits.fz".data (stem.data.take 3 ++ '/' :: instrument ++
    '/' :: dayobs ++ "/raw/".data ++ (stem.data ++ ".fits.fz".data)) = true
  rw [hZ]
  exact isSuffix_append _ _

/-- Witness for C6 at the convention stem `coj0m405-kb24-20200101-0001-00`. -/
theorem C6_witness :
    make_s3_prefix_from_filename ("coj0m405-kb24-20200101-0001-00" ++ ".fits.fz") =
      make_s3_prefix_from_filename ("coj0m405-kb24-20200101-0001-00" ++ ".fits") ∧
    (∃ instrument dayobs : List Char,
      (listSplit '-' "coj0m405-kb24-20200101-0001-00".data)[1]? = some instrument ∧
      (listSplit '-' "coj0m405-kb24-20200101-0001-00".data)[2]? = some dayobs ∧
      make_s3_prefix_from_filename ("coj0m405-kb24-20200101-0001-00" ++ ".fits") =
        some ⟨"coj0m405-kb24-20200101-0001-00".data.take 3 ++ '/' :: instrument ++
          '/' :: dayobs ++ "/raw/".data ++
          ("coj0m405-kb24-20200101-0001-00".data ++ ".fits.fz".data)⟩) ∧
    (∀ key, make_s3_prefix_from_filename ("coj0m405-kb24-20200101-0001-00" ++ ".fits") =
        some key →
      isSuffix ".fits.fz".data key.data = true) :=
  C6_thm "coj0m405-kb24-20200101-0001-00" (by decide) (by decide) (by decide)

/-- Every element produced by a successful `optionMapList` run comes from
applying `f` to some element of the input list. -/
theorem optionMapList_mem (f : α → Option β) :
    ∀ (xs : List α) (ys : List β), optionMapList f xs = some ys →
      ∀ y ∈ ys, ∃ x ∈ xs, f x = some y := by
  intro xs
  induction xs with
  | nil =>
    intro ys h y hy
    injection h with h1
    cases h1
    exact absurd hy (List.not_mem_nil y)
  | cons x xs ih =>
    intro ys h y hy
    cases hfx : f x with
    | none =>
      rw [optionMapList, hfx] at h
      exact Option.noConfusion h
    | some b =>
      cases hrest : optionMapList f xs with
      | none =>
        rw [optionMapList, hfx, hrest] at h
        exact Option.noConfusion h
      | some bs =>
        rw [optionMapList, hfx, hrest] at h
        injection h with h1
        cases h1
        rcases List.mem_cons.mp hy with rfl | hybs
        · exact ⟨x, List.mem_cons_self x xs, hfx⟩
        · obtain ⟨x', hx', hfx'⟩ := ih bs hrest y hybs
          exact ⟨x', List.mem_cons_of_mem x hx', hfx'⟩

/-- C4: every object key returned by `get_nearest_calibration_frames`
derives from a hit whose filename contains `"00.fits"`, and — assuming the
index honours the `must` clauses of the submitted query — every returned hit
matches the target frame's site ID, instrument ID and the requested
observation type exactly, with filter-band equality additionally required
exactly when the observation type is `"SKYFLAT"`. -/
theorem C4_thm (search : Query → List FrameRecord) (obstype : String)
    (n_frames : Nat) (filename : String) (keys : List String)
    (trace : List Query) (m : FrameRecord)
    (hrun : get_nearest_calibration_frames search obstype n_frames filename =
      (some keys, trace))
    (hm : (get_frame_metadata search filename).1 = some m)
    (hHon : ∀ q ∈ trace, ∀ r ∈ search q, ∀ fv ∈ mustOf q,
      fieldValue r fv.1 = some fv.2) :
    ∃ q, trace = [metadataQuery filename, q] ∧
      ∀ key ∈ keys, ∃ rec, rec ∈ search q ∧
        occursIn "00.fits".data rec.filename.data = true ∧
        rec.OBSTYPE = obstype ∧ rec.SITEID = m.SITEID ∧ rec.INSTRUME = m.INSTRUME ∧
        (obstype = "SKYFLAT" → rec.FILTER = m.FILTER) ∧
        make_s3_prefix_from_filename rec.filename = some key := by
  unfold get_nearest_calibration_frames at hrun
  rw [hm] at hrun
  cases hp : parse_date_obs m.DATE_OBS with
  | raised => simp [hp] at hrun
  | value od =>
    cases od with
    | none => simp [hp] at hrun
    | some d =>
      simp only [hp] at hrun
      injection hrun with h1 h2
      refine ⟨_, h2.symm, ?_⟩
      intro key hkey
      obtain ⟨fn, hfn_mem, hfn⟩ := optionMapList_mem _ _ _ h1 key hkey
      obtain ⟨rec, hrec_mem, rfl⟩ := List.mem_map.mp hfn_mem
      obtain ⟨hrec_search, hrec_pred⟩ := List.mem_filter.mp hrec_mem
      have hq0mem : (Query.functionScore
          (if (obstype == "SKYFLAT") = true then
            [("OBSTYPE", obstype), ("SITEID", m.SITEID), ("INSTRUME", m.INSTRUME)] ++
              [("FILTER", m.FILTER)]
          else [("OBSTYPE", obstype), ("SITEID", m.SITEID), ("INSTRUME", m.INSTRUME)])
          (dateOrigin d) "1h" "0.999" n_frames) ∈ trace := by
        rw [← h2]
        exact List.mem_cons_of_mem _ (List.mem_cons_self _ _)
      have hmust := hHon _ hq0mem rec hrec_search
      have hfv_ob : fieldValue rec "OBSTYPE" = some rec.OBSTYPE := rfl
      have hfv_si : fieldValue rec "SITEID" = some rec.SITEID := rfl
      have hfv_in : fieldValue rec "INSTRUME" = some rec.INSTRUME := rfl
      have hfv_fi : fieldValue rec "FILTER" = some rec.FILTER := rfl
      have hOB : rec.OBSTYPE = obstype := by
        have e := hmust ("OBSTYPE", obstype) (by
          by_cases hs : (obstype == "SKYFLAT") = true <;> simp [mustOf, hs])
        rw [hfv_ob] at e
        injection e
      have hSI : rec.SITEID = m.SITEID := by
        have e := hmust ("SITEID", m.SITEID) (by
          by_cases hs : (obstype == "SKYFLAT") = true <;> simp [mustOf, hs])
        rw [hfv_si] at e
        injection e
      have hIN : rec.INSTRUME = m.INSTRUME := by
        have e := hmust ("INSTRUME", m.INSTRUME) (by
          by_cases hs : (obstype == "SKYFLAT") = true <;> simp [mustOf, hs])
        rw [hfv_in] at e
        injection e
      have hFI : obstype = "SKYFLAT" → rec.FILTER = m.FILTER := by
        intro hsky
        have hs : (obstype == "SKYFLAT") = true := beq_iff_eq.mpr hsky
        have e := hmust ("FILTER", m.FILTER) (by simp [mustOf, hs])
        rw [hfv_fi] at e
        injection e
      exact ⟨rec, hrec_search, hrec_pred, hOB, hSI, hIN, hFI, hfn⟩

/-- Witness for C4: a concrete index whose relevance query returns one
calibration hit matching the target frame's site/instrument/obstype. -/
theorem C4_witness :
    ∃ q, ([metadataQuery "somefile",
        Query.functionScore
          [("OBSTYPE", "EXPOSE"), ("SITEID", "coj"), ("INSTRUME", "kb05")]
          "2020-01-01T10:30:00.500UTC" "1h" "0.999" 5] : List Query) =
      [metadataQuery "somefile", q] ∧
      ∀ key ∈ (["coj/kb05/20200102/raw/coj1m003-kb05-20200102-0005-00.fits.fz"] :
          List String),
        ∃ rec : FrameRecord,
          rec ∈ (fun q : Query =>
            match q with
            | Query.matchPhrase _ _ =>
              [(⟨"coj", "kb05", "up", "EXPOSE", "2020-01-01T10:30:00.5", "meta"⟩ :
                FrameRecord)]
            | _ =>
              [(⟨"coj", "kb05", "up", "EXPOSE", "2020-01-01T09:00:00",
                "coj1m003-kb05-20200102-0005-00.fits"⟩ : FrameRecord)]) q ∧
          occursIn "00.fits".data rec.filename.data = true ∧
          rec.OBSTYPE = "EXPOSE" ∧ rec.SITEID = "coj" ∧ rec.INSTRUME = "kb05" ∧
          ("EXPOSE" = "SKYFLAT" → rec.FILTER = "up") ∧
          make_s3_prefix_from_filename rec.filename = some key :=
  C4_thm
    (fun q : Query =>
      match q with
      | Query.matchPhrase _ _ =>
        [(⟨"coj", "kb05", "up", "EXPOSE", "2020-01-01T10:30:00.5", "meta"⟩ :
          FrameRecord)]
      | _ =>
        [(⟨"coj", "kb05", "up", "EXPOSE", "2020-01-01T09:00:00",
          "coj1m003-kb05-20200102-0005-00.fits"⟩ : FrameRecord)])
    "EXPOSE" 5 "somefile"
    ["coj/kb05/20200102/raw/coj1m003-kb05-20200102-0005-00.fits.fz"]
    [metadataQuery "somefile",
     Query.functionScore
       [("OBSTYPE", "EXPOSE"), ("SITEID", "coj"), ("INSTRUME", "kb05")]
       "2020-01-01T10:30:00.500UTC" "1h" "0.999" 5]
    ⟨"coj", "kb05", "up", "EXPOSE", "2020-01-01T10:30:00.5", "meta"⟩
    (by decide) (by decide) (by decide)
